import Mathlib

/-!
Shallow embedding of the snake-coordinate geometry engine of the repository
(`src/coordinates/sinusoidal.cpp`) over the reals, together with theorems
settling the specification claims about it.  Machine floating-point arithmetic
is modelled by exact real arithmetic; the chart parameters hard-coded in
namespace `globals` are generalized to explicit parameters `a`, `k` where a
claim quantifies over them.
-/

open Real

namespace Sinusoidal

noncomputable section

/-- Chart amplitude: `const Real A = 10.0` in namespace `globals`. -/
def A : ℝ := 10

/-- Chart wavenumber: `const Real K = 0.1` in namespace `globals`. -/
def K : ℝ := 1/10

/-- `alpha_sq` at position `x`: `1.0 + SQR(a)*SQR(k) * SQR(cos(k*x))`
(constructor, lines 111-112). -/
def alphaSq (a k x : ℝ) : ℝ := 1 + a^2 * k^2 * (Real.cos (k*x))^2

/-- `beta` at position `x`: `a*k * cos(k*x)` (constructor, lines 114-116). -/
def betaFn (a k x : ℝ) : ℝ := a * k * Real.cos (k*x)

/-- Cell-center coordinate set by the constructor (line 49):
`x1v(i) = 0.5 * (x1f(i) + x1f(i+1))`. -/
def x1v (x1f : ℤ → ℝ) (i : ℤ) : ℝ := (1/2) * (x1f i + x1f (i+1))

/-- Modelled from the spec: the MeshBlock-owned face spacing `dx1f(i)` of the
external mesh layer, `dx1f(i) = x1f(i+1) - x1f(i)` (spec section 3: face arrays
bound the cells; spacings are differences of consecutive faces). -/
def dx1f (x1f : ℤ → ℝ) (i : ℤ) : ℝ := x1f (i+1) - x1f i

/-- `cell_width1_i_(i)` as computed by the constructor (lines 119-120):
`1/(4(1+a²k²)) * (2k(2+a²k²) dx1f(i) - a²k² (sin(2k x1f(i)) - sin(2k x1f(i+1))))`. -/
def cell_width1_i (a k : ℝ) (x1f : ℤ → ℝ) (i : ℤ) : ℝ :=
  1/(4*(1 + a^2*k^2)) *
    (2*k*(2 + a^2*k^2) * dx1f x1f i
      - a^2*k^2 * (Real.sin (2*k*x1f i) - Real.sin (2*k*x1f (i+1))))

/-- `src_terms_i1_(i)` as computed by the constructor (line 123):
`(beta_m - beta_p) / dx1f(i)`. -/
def src_terms_i1 (a k : ℝ) (x1f : ℤ → ℝ) (i : ℤ) : ℝ :=
  (betaFn a k (x1f i) - betaFn a k (x1f (i+1))) / dx1f x1f i

/-- `metric_cell_i1_(i) = alpha_sq_c` (constructor, line 126). -/
def metric_cell_i1 (a k : ℝ) (x1f : ℤ → ℝ) (i : ℤ) : ℝ := alphaSq a k (x1v x1f i)

/-- `metric_cell_i2_(i) = beta_c` (constructor, line 127). -/
def metric_cell_i2 (a k : ℝ) (x1f : ℤ → ℝ) (i : ℤ) : ℝ := betaFn a k (x1v x1f i)

/-- `metric_face1_i1_(i) = alpha_sq_m` (constructor, line 130). -/
def metric_face1_i1 (a k : ℝ) (x1f : ℤ → ℝ) (i : ℤ) : ℝ := alphaSq a k (x1f i)

/-- `metric_face1_i2_(i) = beta_m` (constructor, line 131). -/
def metric_face1_i2 (a k : ℝ) (x1f : ℤ → ℝ) (i : ℤ) : ℝ := betaFn a k (x1f i)

/-- `metric_face2_i1_(i) = alpha_sq_c` (constructor, line 132). -/
def metric_face2_i1 (a k : ℝ) (x1f : ℤ → ℝ) (i : ℤ) : ℝ := alphaSq a k (x1v x1f i)

/-- `metric_face2_i2_(i) = beta_c` (constructor, line 133). -/
def metric_face2_i2 (a k : ℝ) (x1f : ℤ → ℝ) (i : ℤ) : ℝ := betaFn a k (x1v x1f i)

/-- `metric_face3_i1_(i) = alpha_sq_c` (constructor, line 134). -/
def metric_face3_i1 (a k : ℝ) (x1f : ℤ → ℝ) (i : ℤ) : ℝ := alphaSq a k (x1v x1f i)

/-- `metric_face3_i2_(i) = beta_c` (constructor, line 135). -/
def metric_face3_i2 (a k : ℝ) (x1f : ℤ → ℝ) (i : ℤ) : ℝ := betaFn a k (x1v x1f i)

/-- `trans_face1_i2_(i) = beta_m` (constructor, line 138). -/
def trans_face1_i2 (a k : ℝ) (x1f : ℤ → ℝ) (i : ℤ) : ℝ := betaFn a k (x1f i)

/-- `trans_face2_i1_(i) = alpha_c = sqrt(alpha_sq_c)` (constructor, lines 113, 139). -/
def trans_face2_i1 (a k : ℝ) (x1f : ℤ → ℝ) (i : ℤ) : ℝ :=
  Real.sqrt (alphaSq a k (x1v x1f i))

/-- `trans_face2_i2_(i) = beta_c` (constructor, line 140). -/
def trans_face2_i2 (a k : ℝ) (x1f : ℤ → ℝ) (i : ℤ) : ℝ := betaFn a k (x1v x1f i)

/-- `trans_face3_i2_(i) = beta_m` (constructor, line 141). -/
def trans_face3_i2 (a k : ℝ) (x1f : ℤ → ℝ) (i : ℤ) : ℝ := betaFn a k (x1f i)

/-- The 4x4 covariant metric assembled from the five components written by the
metric providers (`CellMetric` / `Face1Metric` / `Face2Metric` / `Face3Metric`,
e.g. lines 472-477): `g00 = -1, g11 = alpha_sq, g12 = g21 = -beta, g22 = 1,
g33 = 1`, zeros elsewhere. -/
def metricCov (αsq β : ℝ) : Matrix (Fin 4) (Fin 4) ℝ :=
  !![-1, 0, 0, 0; 0, αsq, -β, 0; 0, -β, 1, 0; 0, 0, 0, 1]

/-- The 4x4 matrix assembled from the five inverse components written by the
metric providers (lines 478-482): `gi00 = -1, gi11 = 1, gi12 = gi21 = beta,
gi22 = alpha_sq, gi33 = 1`, zeros elsewhere. -/
def metricInv (αsq β : ℝ) : Matrix (Fin 4) (Fin 4) ℝ :=
  !![-1, 0, 0, 0; 0, 1, β, 0; 0, β, αsq, 0; 0, 0, 0, 1]

/-- Four-velocity time component as computed throughout the source:
`sqrt(-1.0 / (g00 + g11 v1 v1 + 2 g12 v1 v2 + g22 v2 v2 + g33 v3 v3))`
with `g00 = -1`, `g22 = g33 = 1`. -/
def u0Of (g11 g12 v1 v2 v3 : ℝ) : ℝ :=
  Real.sqrt (-1 / (-1 + g11*(v1*v1) + 2*g12*(v1*v2) + 1*(v2*v2) + 1*(v3*v3)))

/-- Per-cell source value `s1` of `Coordinates::CoordinateSourceTerms`
(lines 402-429), as the source computes it: geometric inputs are the stored
`metric_cell` pair `(αsq, βstore)` and `src_terms_i1_` value `γ211`; note that
the source sets `g12 = metric_cell_i2_(i)` (the stored `beta`, with no sign
flip, line 405) and uses it both in the `u0` normalization and in
`u_2 = g12 u1 + g22 u2`. -/
def srcS1 (gammaAdi αsq βstore γ211 ρ pgas v1 v2 v3 : ℝ) : ℝ :=
  let g11 := αsq
  let g12 := βstore
  let u0 := u0Of g11 g12 v1 v2 v3
  let u1 := u0 * v1
  let u2 := u0 * v2
  let uLow2 := g12*u1 + 1*u2
  let rhoH := ρ + gammaAdi/(gammaAdi - 1) * pgas
  γ211 * (rhoH * u1 * uLow2)

/-- The specification's source-term formula (spec section 4.5 combined with the
covariant metric of section 4.3): the same expression but with the covariant
component `g12 = -beta`, used both in the `u0` normalization and in
`u_2 = g12 u1 + g22 u2`.  Stated from the spec's words for comparison with
`srcS1`, which is translated from the source. -/
def srcS1Spec (gammaAdi αsq βval γ211 ρ pgas v1 v2 v3 : ℝ) : ℝ :=
  let g12 := -βval
  let u0 := u0Of αsq g12 v1 v2 v3
  let u1 := u0 * v1
  let u2 := u0 * v2
  let uLow2 := g12*u1 + 1*u2
  let rhoH := ρ + gammaAdi/(gammaAdi - 1) * pgas
  γ211 * (rhoH * u1 * uLow2)

/-- Conserved-variable slots of the `cons` array (`IDN, IEN, IM1, IM2, IM3`). -/
inductive ConsVar
  | IDN
  | IEN
  | IM1
  | IM2
  | IM3
  deriving DecidableEq

/-- Primitive-variable slots of the `prim` array (`IDN, IEN, IVX, IVY, IVZ`). -/
inductive PrimVar
  | IDN
  | IEN
  | IVX
  | IVY
  | IVZ
  deriving DecidableEq

/-- Interior index bounds of a MeshBlock (`is..ie`, `js..je`, `ks..ke`). -/
structure Bounds where
  ks : ℤ
  ke : ℤ
  js : ℤ
  je : ℤ
  ilo : ℤ
  ihi : ℤ

/-- The inclusive integer range `[lo, hi]` as a list. -/
def rangeInt (lo hi : ℤ) : List ℤ :=
  (List.range (hi + 1 - lo).toNat).map (fun n : ℕ => lo + (n : ℤ))

/-- The interior cells visited by the triple loop of `CoordinateSourceTerms`
(lines 396-400): `k` from `ks` to `ke`, `j` from `js` to `je`, `i` from `is`
to `ie`. -/
def interiorCells (b : Bounds) : List (ℤ × ℤ × ℤ) :=
  (rangeInt b.ks b.ke).flatMap fun kk =>
    (rangeInt b.js b.je).flatMap fun jj =>
      (rangeInt b.ilo b.ihi).map fun ii => (kk, jj, ii)

/-- One iteration of the loop body of `CoordinateSourceTerms` (lines 402-435):
add `dt * s1` to the `IM1` entry of `cons` at cell `c`, leaving every other
entry unchanged. -/
def applySrc (a k : ℝ) (x1f : ℤ → ℝ) (gammaAdi dt : ℝ)
    (prim : PrimVar → ℤ → ℤ → ℤ → ℝ) (cons : ConsVar → ℤ → ℤ → ℤ → ℝ)
    (c : ℤ × ℤ × ℤ) : ConsVar → ℤ → ℤ → ℤ → ℝ :=
  fun n kk jj ii =>
    if n = ConsVar.IM1 ∧ kk = c.1 ∧ jj = c.2.1 ∧ ii = c.2.2 then
      cons n kk jj ii +
        dt * srcS1 gammaAdi (metric_cell_i1 a k x1f c.2.2) (metric_cell_i2 a k x1f c.2.2)
          (src_terms_i1 a k x1f c.2.2)
          (prim PrimVar.IDN c.1 c.2.1 c.2.2) (prim PrimVar.IEN c.1 c.2.1 c.2.2)
          (prim PrimVar.IVX c.1 c.2.1 c.2.2) (prim PrimVar.IVY c.1 c.2.1 c.2.2)
          (prim PrimVar.IVZ c.1 c.2.1 c.2.2)
    else cons n kk jj ii

/-- `Coordinates::CoordinateSourceTerms` (lines 388-439): fold the loop body
over all interior cells.  The primitive array is an input only; the call is
modelled as returning the (unchanged) primitive array together with the updated
conserved array. -/
def coordinateSourceTerms (a k : ℝ) (x1f : ℤ → ℝ) (b : Bounds) (gammaAdi dt : ℝ)
    (prim : PrimVar → ℤ → ℤ → ℤ → ℝ) (cons : ConsVar → ℤ → ℤ → ℤ → ℝ) :
    (PrimVar → ℤ → ℤ → ℤ → ℝ) × (ConsVar → ℤ → ℤ → ℤ → ℝ) :=
  (prim, (interiorCells b).foldl (applySrc a k x1f gammaAdi dt prim) cons)

/-- `Coordinates::CellVolume` (lines 177-190): for fixed transverse indices
`kk`, `jj`, write `volumes(i) = dx1f(i) * dx2f(jj) * dx3f(kk)` for every `i`
in the inclusive range `[il, iu]`, leaving other entries of the output buffer
unchanged. -/
def cellVolumeFill (x1f : ℤ → ℝ) (dx2f dx3f : ℤ → ℝ) (kk jj il iu : ℤ)
    (volumes : ℤ → ℝ) : ℤ → ℝ :=
  (rangeInt il iu).foldl
    (fun v i => fun ii => if ii = i then dx1f x1f i * dx2f jj * dx3f kk else v ii)
    volumes

/-- Velocity part of `Coordinates::PrimToLocal1` (lines 653-701) for one state:
geometric inputs are the stored `metric_face1` pair and the `trans_face1_i2_`
coefficient; the result triple is the overwritten `(IVX, IVY, IVZ)` slots. -/
def primToLocal1V (αsq βmet βtr v1 v2 v3 : ℝ) : ℝ × ℝ × ℝ :=
  let g11 := αsq
  let g12 := -βmet
  let my1 := -βtr
  let u0 := u0Of g11 g12 v1 v2 v3
  let u1 := u0 * v1
  let u2 := u0 * v2
  let u3 := u0 * v3
  let ut := u0
  let ux := u1
  let uy := my1*u1 + u2
  let uz := u3
  (ux/ut, uy/ut, uz/ut)

/-- Velocity part of `Coordinates::PrimToLocal2` (lines 774-822) for one state:
geometric inputs are the stored `metric_face2` pair and the `trans_face2`
coefficients `αc = trans_face2_i1_`, `βtr = trans_face2_i2_`; the result triple
is the overwritten `(IVX, IVY, IVZ)` slots (the code writes the local
velocities into `IVY`, `IVZ`, `IVX` respectively). -/
def primToLocal2V (αsq βmet αc βtr v1 v2 v3 : ℝ) : ℝ × ℝ × ℝ :=
  let g11 := αsq
  let g12 := -βmet
  let mx2 := 1/αc
  let mz1 := αc
  let mz2 := -βtr/αc
  let u0 := u0Of g11 g12 v1 v2 v3
  let u1 := u0 * v1
  let u2 := u0 * v2
  let u3 := u0 * v3
  let ut := u0
  let ux := mx2*u2
  let uy := u3
  let uz := mz1*u1 + mz2*u2
  (uz/ut, ux/ut, uy/ut)

/-- Velocity part of `Coordinates::PrimToLocal3` (lines 895-943) for one state:
geometric inputs are the stored `metric_face3` pair and the `trans_face3_i2_`
coefficient; the result triple is the overwritten `(IVX, IVY, IVZ)` slots (the
code writes the local velocities into `IVZ`, `IVX`, `IVY` respectively). -/
def primToLocal3V (αsq βmet βtr v1 v2 v3 : ℝ) : ℝ × ℝ × ℝ :=
  let g11 := αsq
  let g12 := -βmet
  let mz1 := -βtr
  let u0 := u0Of g11 g12 v1 v2 v3
  let u1 := u0 * v1
  let u2 := u0 * v2
  let u3 := u0 * v3
  let ut := u0
  let ux := u3
  let uy := u1
  let uz := mz1*u1 + u2
  (uy/ut, uz/ut, ux/ut)

/-- Modelled from the spec: the external flux solver's perfect-fluid fluxes in
the local (Minkowski) frame, from local primitives (spec sections 4.4/4.4b and
glossary): mass flux `ρ u^x`, energy flux `T^{xt}`, momentum fluxes
`T^{xx}, T^{xy}, T^{xz}` with `T^{xν} = ρh u^x u^ν + p η^{xν}` and
`ρh = ρ + γ/(γ-1) p`. -/
def localFlux (gammaAdi ρ p vx vy vz : ℝ) : ℝ × ℝ × ℝ × ℝ × ℝ :=
  let ut := u0Of 1 0 vx vy vz
  let ux := ut * vx
  let uy := ut * vy
  let uz := ut * vz
  let rhoH := ρ + gammaAdi/(gammaAdi - 1) * p
  (ρ*ux, rhoH*ux*ut, rhoH*ux*ux + p, rhoH*ux*uy, rhoH*ux*uz)

/-- Slot placement of the direction-2 local fluxes: `FluxToGlobal2` expects the
local values and x-fluxes of `Mx/My/Mz` in the `IM2/IM3/IM1` slots (comment at
lines 1071-1072), matching `PrimToLocal2`'s velocity slot permutation.  Input
is the abstract local flux 5-tuple `(D, T^{xt}, T^{xx}, T^{xy}, T^{xz})`;
output is the `(IDN, IEN, IM1, IM2, IM3)` slot array. -/
def riemannSlots2 (f : ℝ × ℝ × ℝ × ℝ × ℝ) : ℝ × ℝ × ℝ × ℝ × ℝ :=
  (f.1, f.2.1, f.2.2.2.2, f.2.2.1, f.2.2.2.1)

/-- Slot placement of the direction-3 local fluxes: `FluxToGlobal3` expects the
local values and x-fluxes of `Mx/My/Mz` in the `IM3/IM1/IM2` slots (comment at
lines 1143-1144), matching `PrimToLocal3`'s velocity slot permutation. -/
def riemannSlots3 (f : ℝ × ℝ × ℝ × ℝ × ℝ) : ℝ × ℝ × ℝ × ℝ × ℝ :=
  (f.1, f.2.1, f.2.2.2.1, f.2.2.2.2, f.2.2.1)

/-- `Coordinates::FluxToGlobal1` (lines 1002-1059), hydrodynamic part: input
and output are `(IDN, IEN, IM1, IM2, IM3)` slot arrays; geometric inputs are
the stored `metric_face1` pair and `m2x = trans_face1_i2_`. -/
def fluxToGlobal1 (αsq βmet βtr : ℝ) (f : ℝ × ℝ × ℝ × ℝ × ℝ) : ℝ × ℝ × ℝ × ℝ × ℝ :=
  let g11 := αsq
  let g12 := -βmet
  let m2x := βtr
  let dx := f.1
  let txt := f.2.1
  let txx := f.2.2.1
  let txy := f.2.2.2.1
  let txz := f.2.2.2.2
  let tcon10 := txt
  let tcon11 := txx
  let tcon12 := m2x*txx + txy
  let tcon13 := txz
  (dx, (-1)*tcon10, g11*tcon11 + g12*tcon12, g12*tcon11 + 1*tcon12, 1*tcon13)

/-- `Coordinates::FluxToGlobal2` (lines 1075-1132), hydrodynamic part: reads
the local `Mx/My/Mz` fluxes from the `IM2/IM3/IM1` slots; geometric inputs are
the stored `metric_face2` pair and `m1x = trans_face2_i2_/trans_face2_i1_`,
`m1z = 1/trans_face2_i1_`, `m2x = trans_face2_i1_`. -/
def fluxToGlobal2 (αsq βmet αc βtr : ℝ) (f : ℝ × ℝ × ℝ × ℝ × ℝ) : ℝ × ℝ × ℝ × ℝ × ℝ :=
  let g11 := αsq
  let g12 := -βmet
  let m1x := βtr/αc
  let m1z := 1/αc
  let m2x := αc
  let dx := f.1
  let txt := f.2.1
  let txx := f.2.2.2.1
  let txy := f.2.2.2.2
  let txz := f.2.2.1
  let tcon20 := m2x*txt
  let tcon21 := m2x*(m1x*txx + m1z*txz)
  let tcon22 := m2x*m2x*txx
  let tcon23 := m2x*txy
  (m2x*dx, (-1)*tcon20, g11*tcon21 + g12*tcon22, g12*tcon21 + 1*tcon22, 1*tcon23)

/-- `Coordinates::FluxToGlobal3` (lines 1148-1205), hydrodynamic part: reads
the local `Mx/My/Mz` fluxes from the `IM3/IM1/IM2` slots; geometric inputs are
the stored `metric_face3` pair and `m2y = trans_face3_i2_`. -/
def fluxToGlobal3 (αsq βmet βtr : ℝ) (f : ℝ × ℝ × ℝ × ℝ × ℝ) : ℝ × ℝ × ℝ × ℝ × ℝ :=
  let g11 := αsq
  let g12 := -βmet
  let m2y := βtr
  let dx := f.1
  let txt := f.2.1
  let txx := f.2.2.2.2
  let txy := f.2.2.1
  let txz := f.2.2.2.1
  let tcon30 := txt
  let tcon31 := txy
  let tcon32 := m2y*txy + 1*txz
  let tcon33 := txx
  (dx, (-1)*tcon30, g11*tcon31 + g12*tcon32, g12*tcon31 + 1*tcon32, 1*tcon33)

/-- Modelled from the spec: the global-coordinate flux vector in direction 1
derived from a primitive state, the comparison target of the round-trip
property (spec sections 4.4b and 8): `D^1 = ρ u^1`,
`T^{1ν} = ρh u^1 u^ν + p g^{1ν}` with the inverse metric `g^{11} = 1`,
`g^{12} = β`, lowered with the covariant metric into the code's slot
convention `(IDN, IEN = T^1_0, IM1 = T^1_1, IM2 = T^1_2, IM3 = T^1_3)`. -/
def globalFlux1 (gammaAdi αsq β ρ p v1 v2 v3 : ℝ) : ℝ × ℝ × ℝ × ℝ × ℝ :=
  let u0 := u0Of αsq (-β) v1 v2 v3
  let u1 := u0 * v1
  let u2 := u0 * v2
  let u3 := u0 * v3
  let rhoH := ρ + gammaAdi/(gammaAdi - 1) * p
  let t10 := rhoH*u1*u0
  let t11 := rhoH*u1*u1 + p
  let t12 := rhoH*u1*u2 + p*β
  let t13 := rhoH*u1*u3
  (ρ*u1, -t10, αsq*t11 + (-β)*t12, (-β)*t11 + 1*t12, 1*t13)

/-- Modelled from the spec: the global-coordinate flux vector in direction 2
derived from a primitive state (`g^{21} = β`, `g^{22} = αsq`), lowered into the
slot convention `(IDN, IEN = T^2_0, IM1 = T^2_1, IM2 = T^2_2, IM3 = T^2_3)`. -/
def globalFlux2 (gammaAdi αsq β ρ p v1 v2 v3 : ℝ) : ℝ × ℝ × ℝ × ℝ × ℝ :=
  let u0 := u0Of αsq (-β) v1 v2 v3
  let u1 := u0 * v1
  let u2 := u0 * v2
  let u3 := u0 * v3
  let rhoH := ρ + gammaAdi/(gammaAdi - 1) * p
  let t20 := rhoH*u2*u0
  let t21 := rhoH*u2*u1 + p*β
  let t22 := rhoH*u2*u2 + p*αsq
  let t23 := rhoH*u2*u3
  (ρ*u2, -t20, αsq*t21 + (-β)*t22, (-β)*t21 + 1*t22, 1*t23)

/-- Modelled from the spec: the global-coordinate flux vector in direction 3
derived from a primitive state (`g^{33} = 1`, `g^{3ν} = 0` otherwise), lowered
into the slot convention `(IDN, IEN = T^3_0, IM1 = T^3_1, IM2 = T^3_2,
IM3 = T^3_3)`. -/
def globalFlux3 (gammaAdi αsq β ρ p v1 v2 v3 : ℝ) : ℝ × ℝ × ℝ × ℝ × ℝ :=
  let u0 := u0Of αsq (-β) v1 v2 v3
  let u1 := u0 * v1
  let u2 := u0 * v2
  let u3 := u0 * v3
  let rhoH := ρ + gammaAdi/(gammaAdi - 1) * p
  let t30 := rhoH*u3*u0
  let t31 := rhoH*u3*u1
  let t32 := rhoH*u3*u2
  let t33 := rhoH*u3*u3 + p
  (ρ*u3, -t30, αsq*t31 + (-β)*t32, (-β)*t31 + 1*t32, 1*t33)

/-- The direction-1 round trip at interface `i`: transform a primitive state
with `PrimToLocal1`, form the local-frame fluxes, and transform them back with
`FluxToGlobal1`, all with the coefficients the constructor stored for face 1. -/
def roundTrip1 (a k : ℝ) (x1f : ℤ → ℝ) (i : ℤ) (gammaAdi ρ p v1 v2 v3 : ℝ) :
    ℝ × ℝ × ℝ × ℝ × ℝ :=
  let vloc := primToLocal1V (metric_face1_i1 a k x1f i) (metric_face1_i2 a k x1f i)
    (trans_face1_i2 a k x1f i) v1 v2 v3
  fluxToGlobal1 (metric_face1_i1 a k x1f i) (metric_face1_i2 a k x1f i)
    (trans_face1_i2 a k x1f i)
    (localFlux gammaAdi ρ p vloc.1 vloc.2.1 vloc.2.2)

/-- The direction-2 round trip at interface `i` (the local `vx/vy/vz` sit in
the `IVY/IVZ/IVX` slots of the transformed state, and the local fluxes in the
`IM2/IM3/IM1` slots). -/
def roundTrip2 (a k : ℝ) (x1f : ℤ → ℝ) (i : ℤ) (gammaAdi ρ p v1 v2 v3 : ℝ) :
    ℝ × ℝ × ℝ × ℝ × ℝ :=
  let vloc := primToLocal2V (metric_face2_i1 a k x1f i) (metric_face2_i2 a k x1f i)
    (trans_face2_i1 a k x1f i) (trans_face2_i2 a k x1f i) v1 v2 v3
  fluxToGlobal2 (metric_face2_i1 a k x1f i) (metric_face2_i2 a k x1f i)
    (trans_face2_i1 a k x1f i) (trans_face2_i2 a k x1f i)
    (riemannSlots2 (localFlux gammaAdi ρ p vloc.2.1 vloc.2.2 vloc.1))

/-- The direction-3 round trip at interface `i` (the local `vx/vy/vz` sit in
the `IVZ/IVX/IVY` slots of the transformed state, and the local fluxes in the
`IM3/IM1/IM2` slots). -/
def roundTrip3 (a k : ℝ) (x1f : ℤ → ℝ) (i : ℤ) (gammaAdi ρ p v1 v2 v3 : ℝ) :
    ℝ × ℝ × ℝ × ℝ × ℝ :=
  let vloc := primToLocal3V (metric_face3_i1 a k x1f i) (metric_face3_i2 a k x1f i)
    (trans_face3_i2 a k x1f i) v1 v2 v3
  fluxToGlobal3 (metric_face3_i1 a k x1f i) (metric_face3_i2 a k x1f i)
    (trans_face3_i2 a k x1f i)
    (riemannSlots3 (localFlux gammaAdi ρ p vloc.2.2 vloc.1 vloc.2.1))

/-- Magnetic part of `Coordinates::PrimToLocal3` (lines 946-983), for a
left/right pair of states sharing the normal component `b3`.  Result:
`(bz(i), (left IBY, left IBZ), (right IBY, right IBZ))` exactly as the source
assigns them (lines 976-982): the left slots are set from the local `x` and `y`
components, the right slots from the local `y` and `z` components. -/
def primToLocal3B (αsq βmet βtr b3 v1l v2l v3l b1l b2l v1r v2r v3r b1r b2r : ℝ) :
    ℝ × (ℝ × ℝ) × (ℝ × ℝ) :=
  let g11 := αsq
  let g12 := -βmet
  let mz1 := -βtr
  let u0l := u0Of g11 g12 v1l v2l v3l
  let u1l := u0l * v1l
  let u2l := u0l * v2l
  let u3l := u0l * v3l
  let u0r := u0Of g11 g12 v1r v2r v3r
  let u1r := u0r * v1r
  let u2r := u0r * v2r
  let u3r := u0r * v3r
  let utl := u0l
  let uxl := u3l
  let uyl := u1l
  let uzl := mz1*u1l + u2l
  let utr := u0r
  let uxr := u3r
  let uyr := u1r
  let uzr := mz1*u1r + u2r
  let bcon0l := g11*b1l*u1l + g12*(b1l*u2l + b2l*u1l) + 1*(b2l*u2l) + 1*(b3*u3l)
  let bcon1l := (b1l + bcon0l*u1l) / u0l
  let bcon2l := (b2l + bcon0l*u2l) / u0l
  let bcon3l := (b3 + bcon0l*u3l) / u0l
  let bcon0r := g11*b1r*u1r + g12*(b1r*u2r + b2r*u1r) + 1*(b2r*u2r) + 1*(b3*u3r)
  let bcon1r := (b1r + bcon0r*u1r) / u0r
  let bcon2r := (b2r + bcon0r*u2r) / u0r
  let bcon3r := (b3 + bcon0r*u3r) / u0r
  let bcontl := bcon0l
  let bconxl := bcon3l
  let bconyl := bcon1l
  let bconzl := mz1*bcon1l + bcon2l
  let bcontr := bcon0r
  let bconxr := bcon3r
  let bconyr := bcon1r
  let bconzr := mz1*bcon1r + bcon2r
  let bzl := utl*bconzl - uzl*bcontl
  let bzr := utr*bconzr - uzr*bcontr
  (1/2*(bzl + bzr),
    (utl*bconxl - uxl*bcontl, utl*bconyl - uyl*bcontl),
    (utr*bconyr - uyr*bcontr, utr*bconzr - uzr*bcontr))

end

/-- The constructor always stores pairs with `alpha_sq = 1 + beta^2`. -/
theorem alphaSq_eq_one_add_sq (a k x : ℝ) : alphaSq a k x = 1 + (betaFn a k x)^2 := by
  unfold alphaSq betaFn; ring

/-- `alpha_sq` dominates `1` for all parameters and positions. -/
theorem one_le_alphaSq (a k x : ℝ) : 1 ≤ alphaSq a k x := by
  unfold alphaSq
  have h : 0 ≤ a^2 * k^2 * (Real.cos (k*x))^2 := by positivity
  linarith

/-- `alpha_sq` is positive. -/
theorem alphaSq_pos (a k x : ℝ) : 0 < alphaSq a k x :=
  lt_of_lt_of_le one_pos (one_le_alphaSq a k x)

/-- At zero velocity the reconstructed `u0` is `1`, whatever the metric pair. -/
theorem u0Of_zero (g11 g12 : ℝ) : u0Of g11 g12 0 0 0 = 1 := by
  simp [u0Of]

/-- Matrix-inverse identity for the assembled metric pair, given the
constructor invariant `alpha_sq = 1 + beta^2`. -/
theorem metricCov_mul_metricInv (αsq β : ℝ) (h : αsq = 1 + β^2) :
    metricCov αsq β * metricInv αsq β = 1 := by
  subst h
  ext i j
  fin_cases i <;> fin_cases j <;>
    simp [metricCov, metricInv, Matrix.mul_apply, Fin.sum_univ_four, Matrix.one_apply,
      Matrix.vecHead, Matrix.vecTail] <;>
    ring

/-- C9: for all chart parameters `a`, `k` and every position `x`, the metric
scalar `alpha_sq = 1 + a^2 k^2 cos^2(k x)` is at least `1`; in particular every
value the constructor writes into the cell-centered and face-centered
`alpha_sq` arrays is at least `1`. -/
theorem spec_c9 (a k x : ℝ) (x1f : ℤ → ℝ) (i : ℤ) :
    1 ≤ alphaSq a k x ∧
    1 ≤ metric_cell_i1 a k x1f i ∧
    1 ≤ metric_face1_i1 a k x1f i ∧
    1 ≤ metric_face2_i1 a k x1f i ∧
    1 ≤ metric_face3_i1 a k x1f i :=
  ⟨one_le_alphaSq a k x, one_le_alphaSq a k _, one_le_alphaSq a k _,
    one_le_alphaSq a k _, one_le_alphaSq a k _⟩

/-- C2: at every index and every location (cell center and each of the three
face types), the 4x4 covariant metric assembled from the five stored
components multiplied by the matrix assembled from the five stored inverse
components is the identity, the stored pairs being those the constructor
produces (which satisfy `alpha_sq = 1 + beta^2`). -/
theorem spec_c2 (a k : ℝ) (x1f : ℤ → ℝ) (i : ℤ) :
    metricCov (metric_cell_i1 a k x1f i) (metric_cell_i2 a k x1f i) *
        metricInv (metric_cell_i1 a k x1f i) (metric_cell_i2 a k x1f i) = 1 ∧
    metricCov (metric_face1_i1 a k x1f i) (metric_face1_i2 a k x1f i) *
        metricInv (metric_face1_i1 a k x1f i) (metric_face1_i2 a k x1f i) = 1 ∧
    metricCov (metric_face2_i1 a k x1f i) (metric_face2_i2 a k x1f i) *
        metricInv (metric_face2_i1 a k x1f i) (metric_face2_i2 a k x1f i) = 1 ∧
    metricCov (metric_face3_i1 a k x1f i) (metric_face3_i2 a k x1f i) *
        metricInv (metric_face3_i1 a k x1f i) (metric_face3_i2 a k x1f i) = 1 :=
  ⟨metricCov_mul_metricInv _ _ (alphaSq_eq_one_add_sq a k _),
    metricCov_mul_metricInv _ _ (alphaSq_eq_one_add_sq a k _),
    metricCov_mul_metricInv _ _ (alphaSq_eq_one_add_sq a k _),
    metricCov_mul_metricInv _ _ (alphaSq_eq_one_add_sq a k _)⟩

/-- C10: the constructor stores the face-centered `beta` as the face-3 rotation
coefficient (`trans_face3_i2_(i) = beta(x1f(i))`, identical to
`trans_face1_i2_(i)`), while the face-3 metric pair stores the cell-centered
`beta` (`metric_face3_i2_(i) = beta(x1v(i))`, the midpoint of the two bounding
faces); consequently `PrimToLocal3` at index `i` runs on a metric evaluated at
the cell center combined with a rotation coefficient evaluated at the lower
face. -/
theorem spec_c10 (a k : ℝ) (x1f : ℤ → ℝ) (i : ℤ) :
    trans_face3_i2 a k x1f i = betaFn a k (x1f i) ∧
    trans_face3_i2 a k x1f i = trans_face1_i2 a k x1f i ∧
    metric_face3_i2 a k x1f i = betaFn a k ((1/2) * (x1f i + x1f (i+1))) ∧
    primToLocal3V (metric_face3_i1 a k x1f i) (metric_face3_i2 a k x1f i)
        (trans_face3_i2 a k x1f i) =
      primToLocal3V (alphaSq a k (x1v x1f i)) (betaFn a k (x1v x1f i))
        (betaFn a k (x1f i)) :=
  ⟨rfl, rfl, rfl, rfl⟩

/-- C3 (code evaluated at the failing input): with amplitude `0`, wavenumber
`1/10` and the unit-spaced face array, the constructor's `cell_width1_i_(0)` is
`1/10`, while the raw spacing `dx1f(0)` is `1`; the flat-chart cell width does
not reduce to the raw coordinate spacing (the code's closed form carries a
stray factor of the wavenumber). -/
theorem spec_c3_eval :
    cell_width1_i 0 (1/10) (fun i => (i : ℝ)) 0 = 1/10 ∧
    dx1f (fun i => (i : ℝ)) 0 = 1 ∧ ((1 : ℝ)/10) ≠ 1 := by
  refine ⟨?_, ?_, by norm_num⟩
  · unfold cell_width1_i dx1f
    push_cast
    ring_nf
  · unfold dx1f
    push_cast
    ring

/-- With a flat stored pair (`alpha_sq = 1`, both `beta` coefficients `0`) the
`PrimToLocal1` velocity transform is the identity on subluminal states. -/
theorem primToLocal1V_flat (v1 v2 v3 : ℝ) (h : v1^2 + v2^2 + v3^2 < 1) :
    primToLocal1V 1 0 0 v1 v2 v3 = (v1, v2, v3) := by
  have hu : 0 < u0Of 1 0 v1 v2 v3 := by
    apply Real.sqrt_pos.mpr
    apply div_pos_iff.mpr
    right
    constructor <;> nlinarith
  have hne : u0Of 1 0 v1 v2 v3 ≠ 0 := ne_of_gt hu
  simp only [primToLocal1V]
  refine Prod.ext ?_ (Prod.ext ?_ ?_) <;>
    simp only [neg_zero, zero_mul, zero_add, one_mul] <;>
    exact mul_div_cancel_left₀ _ hne

/-- C1 (code evaluated at the failing input): at a cell where the stored
metric pair is `(alpha_sq, beta) = (2, 1)` — realized by the hard-coded chart
parameters at cell center `x1v = 0` — with source coefficient `1`, state
`ρ = 1`, `p = 0`, `v = (1/2, 0, 0)` and `dt = 1`, the momentum increment the
source computes is `+1/2`, whereas the spec formula (with the covariant
`g12 = -beta` of section 4.3) gives `-1/2`. -/
theorem spec_c1_eval :
    alphaSq A K 0 = 2 ∧ betaFn A K 0 = 1 ∧
    1 * srcS1 2 2 1 1 1 0 (1/2) 0 0 = 1/2 ∧
    1 * srcS1Spec 2 2 1 1 1 0 (1/2) 0 0 = -(1/2) ∧
    ((1 : ℝ)/2) ≠ -(1/2) := by
  have hs : Real.sqrt 2 * Real.sqrt 2 = 2 := Real.mul_self_sqrt (by norm_num)
  refine ⟨?_, ?_, ?_, ?_, by norm_num⟩
  · unfold alphaSq A K; norm_num
  · unfold betaFn A K; norm_num
  · unfold srcS1 u0Of
    norm_num
    nlinarith [hs]
  · unfold srcS1Spec u0Of
    norm_num
    nlinarith [hs]

/-- C6 (code evaluated at the failing input): with stored values
`(alpha_sq, beta_met, beta_tr) = (1, 0, 0)`, normal field `b3 = 1`, both
states at rest and with zero tangential fields — identical left and right
inputs — `PrimToLocal3` writes `1` into the left `IBY` slot but `0` into the
right `IBY` slot: the left outputs are built from the local `x`/`y` field
components while the right outputs are built from the local `y`/`z`
components. -/
theorem spec_c6_eval :
    (primToLocal3B 1 0 0 1 0 0 0 0 0 0 0 0 0 0).2.1.1 = 1 ∧
    (primToLocal3B 1 0 0 1 0 0 0 0 0 0 0 0 0 0).2.2.1 = 0 := by
  constructor <;> simp [primToLocal3B, u0Of_zero]

/-- C7: at a face where `cos(k * x1f(i)) = 0` (so the stored face-1 `beta` is
`0` and the face-1 `alpha_sq` is `1`), the `PrimToLocal1` frame transform is
the identity on the three velocity components of both the left and the right
state, for all subluminal input velocities. -/
theorem spec_c7 (a k x v1l v2l v3l v1r v2r v3r : ℝ)
    (hcos : Real.cos (k*x) = 0)
    (hl : v1l^2 + v2l^2 + v3l^2 < 1) (hr : v1r^2 + v2r^2 + v3r^2 < 1) :
    primToLocal1V (alphaSq a k x) (betaFn a k x) (betaFn a k x) v1l v2l v3l
        = (v1l, v2l, v3l) ∧
    primToLocal1V (alphaSq a k x) (betaFn a k x) (betaFn a k x) v1r v2r v3r
        = (v1r, v2r, v3r) := by
  have hA : alphaSq a k x = 1 := by simp [alphaSq, hcos]
  have hB : betaFn a k x = 0 := by simp [betaFn, hcos]
  rw [hA, hB]
  constructor <;> exact primToLocal1V_flat _ _ _ (by assumption)

/-- Witness for C7 at `a = 10`, `k = 1`, `x = π/2`, left velocity
`(1/2, 0, 0)`, right velocity `(0, 0, 0)`. -/
theorem spec_c7_witness :
    Real.cos ((1 : ℝ) * (Real.pi/2)) = 0 ∧
    ((1 : ℝ)/2)^2 + 0^2 + 0^2 < 1 ∧ ((0 : ℝ)^2 + 0^2 + 0^2 < 1) ∧
    (primToLocal1V (alphaSq 10 1 (Real.pi/2)) (betaFn 10 1 (Real.pi/2))
          (betaFn 10 1 (Real.pi/2)) (1/2) 0 0 = (1/2, 0, 0) ∧
      primToLocal1V (alphaSq 10 1 (Real.pi/2)) (betaFn 10 1 (Real.pi/2))
          (betaFn 10 1 (Real.pi/2)) 0 0 0 = (0, 0, 0)) :=
  ⟨by simp [Real.cos_pi_div_two], by norm_num, by norm_num,
    spec_c7 10 1 (Real.pi/2) (1/2) 0 0 0 0 0 (by simp [Real.cos_pi_div_two])
      (by norm_num) (by norm_num)⟩

/-- Membership in the inclusive integer range list. -/
theorem mem_rangeInt (lo hi x : ℤ) : x ∈ rangeInt lo hi ↔ lo ≤ x ∧ x ≤ hi := by
  constructor
  · intro h
    obtain ⟨n, hn, hx⟩ := List.mem_map.mp h
    have hn2 := List.mem_range.mp hn
    omega
  · rintro ⟨h1, h2⟩
    exact List.mem_map.mpr ⟨(x - lo).toNat, List.mem_range.mpr (by omega), by omega⟩

/-- Any cell visited by the source-term triple loop lies in the interior. -/
theorem mem_interiorCells (b : Bounds) (c : ℤ × ℤ × ℤ) (h : c ∈ interiorCells b) :
    (b.ks ≤ c.1 ∧ c.1 ≤ b.ke) ∧ (b.js ≤ c.2.1 ∧ c.2.1 ≤ b.je) ∧
      (b.ilo ≤ c.2.2 ∧ c.2.2 ≤ b.ihi) := by
  simp only [interiorCells, List.mem_flatMap, List.mem_map] at h
  obtain ⟨kk, hk, jj, hj, ii, hi, rfl⟩ := h
  exact ⟨(mem_rangeInt _ _ _).mp hk, (mem_rangeInt _ _ _).mp hj,
    (mem_rangeInt _ _ _).mp hi⟩

/-- Folding the source-term loop body over a list of cells leaves every entry
untouched that none of the visited cells' `IM1` update targets. -/
theorem srcFold_frame (a k : ℝ) (x1f : ℤ → ℝ) (gammaAdi dt : ℝ)
    (prim : PrimVar → ℤ → ℤ → ℤ → ℝ) (L : List (ℤ × ℤ × ℤ))
    (cons : ConsVar → ℤ → ℤ → ℤ → ℝ) (n : ConsVar) (kk jj ii : ℤ)
    (h : ∀ c ∈ L, ¬(n = ConsVar.IM1 ∧ kk = c.1 ∧ jj = c.2.1 ∧ ii = c.2.2)) :
    (L.foldl (applySrc a k x1f gammaAdi dt prim) cons) n kk jj ii =
      cons n kk jj ii := by
  induction L generalizing cons with
  | nil => rfl
  | cons c rest ih =>
    rw [List.foldl_cons, ih _ (fun d hd => h d (List.mem_cons_of_mem _ hd))]
    simp only [applySrc]
    rw [if_neg (h c (List.mem_cons_self _ _))]

/-- C8: `CoordinateSourceTerms` modifies only the `IM1` (x1-momentum) entries
of the conserved array and only at interior cells; every other conserved
component at every cell, and every conserved component of every cell outside
the interior bounds, keeps its value, and the primitive input array is
returned unmodified. -/
theorem spec_c8 (a k : ℝ) (x1f : ℤ → ℝ) (b : Bounds) (gammaAdi dt : ℝ)
    (prim : PrimVar → ℤ → ℤ → ℤ → ℝ) (cons : ConsVar → ℤ → ℤ → ℤ → ℝ)
    (n : ConsVar) (kk jj ii : ℤ)
    (h : n ≠ ConsVar.IM1 ∨ kk < b.ks ∨ b.ke < kk ∨ jj < b.js ∨ b.je < jj ∨
      ii < b.ilo ∨ b.ihi < ii) :
    (coordinateSourceTerms a k x1f b gammaAdi dt prim cons).1 = prim ∧
    (coordinateSourceTerms a k x1f b gammaAdi dt prim cons).2 n kk jj ii =
      cons n kk jj ii := by
  refine ⟨rfl, srcFold_frame a k x1f gammaAdi dt prim _ cons n kk jj ii ?_⟩
  rintro c hc ⟨hn, hk, hj, hi⟩
  have hmem := mem_interiorCells b c hc
  rcases h with h | h | h | h | h | h | h
  · exact h hn
  all_goals omega

/-- Witness for C8 on a one-cell block: the `IEN` entry is untouched. -/
theorem spec_c8_witness :
    (ConsVar.IEN ≠ ConsVar.IM1 ∨ (0 : ℤ) < 0 ∨ (0 : ℤ) < 0 ∨ (0 : ℤ) < 0 ∨
      (0 : ℤ) < 0 ∨ (0 : ℤ) < 0 ∨ (0 : ℤ) < 0) ∧
    (coordinateSourceTerms 10 (1/10) (fun i => (i : ℝ)) ⟨0, 0, 0, 0, 0, 0⟩ (5/3) 1
        (fun _ _ _ _ => 1) (fun _ _ _ _ => 5)).2 ConsVar.IEN 0 0 0 = 5 :=
  ⟨Or.inl (by decide),
    (spec_c8 10 (1/10) (fun i => (i : ℝ)) ⟨0, 0, 0, 0, 0, 0⟩ (5/3) 1
        (fun _ _ _ _ => 1) (fun _ _ _ _ => 5) ConsVar.IEN 0 0 0
        (Or.inl (by decide))).2⟩

/-- Writing a position-determined value at each index of a list, in order,
yields that value at every listed position and leaves the rest unchanged. -/
theorem fillFold_eq (g : ℤ → ℝ) (L : List ℤ) (vols : ℤ → ℝ) (x : ℤ) :
    (L.foldl (fun v i => fun ii => if ii = i then g i else v ii) vols) x =
      if x ∈ L then g x else vols x := by
  induction L generalizing vols with
  | nil => simp
  | cons c rest ih =>
    rw [List.foldl_cons, ih]
    by_cases hx : x ∈ rest
    · simp [hx]
    · by_cases hc : x = c
      · subst hc
        simp [hx]
      · simp [hx, hc]

/-- C4 (counterexample): on the unit-spaced face array with the hard-coded
chart parameters, `CellVolume` writes `volumes(0) = 1` (the raw spacing
product), which differs from `cellWidth(0) * dx2f * dx3f`: the width entering
the volume product is the raw coordinate spacing `dx1f(i)`, not the
precomputed `cellWidth`. -/
theorem spec_c4_counterexample :
    cellVolumeFill (fun i => (i : ℝ)) (fun _ => 1) (fun _ => 1) 0 0 0 0
        (fun _ => 0) 0 = 1 ∧
    cell_width1_i A K (fun i => (i : ℝ)) 0 * 1 * 1 ≠ 1 := by
  constructor
  · rw [cellVolumeFill, fillFold_eq]
    rw [if_pos ((mem_rangeInt 0 0 0).mpr ⟨le_refl 0, le_refl 0⟩)]
    unfold dx1f
    push_cast
    ring
  · have h1 := Real.sin_le_one ((1 : ℝ)/5)
    have key : cell_width1_i A K (fun i => (i : ℝ)) 0 =
        1/8 * (3/5 + Real.sin (1/5)) := by
      unfold cell_width1_i dx1f A K
      push_cast
      rw [show (2*((1:ℝ)/10)*(0:ℝ)) = 0 by norm_num, Real.sin_zero,
        show (2*((1:ℝ)/10)*(1:ℝ)) = 1/5 by norm_num]
      norm_num
    rw [key]
    intro hcontra
    nlinarith

/-- C4 (amended): for every pair of transverse indices and every index `i` in
the requested inclusive range, `CellVolume` writes
`volumes(i) = dx1f(i) * dx2f(j) * dx3f(k)` — the width along the
metric-varying direction entering the volume product is the raw coordinate
spacing `dx1f(i)`, not the precomputed `cellWidth`. -/
theorem spec_c4_amended (x1f dx2f dx3f : ℤ → ℝ) (kk jj il iu : ℤ)
    (vols : ℤ → ℝ) (i : ℤ) (h1 : il ≤ i) (h2 : i ≤ iu) :
    cellVolumeFill x1f dx2f dx3f kk jj il iu vols i =
      dx1f x1f i * dx2f jj * dx3f kk := by
  rw [cellVolumeFill, fillFold_eq]
  rw [if_pos ((mem_rangeInt il iu i).mpr ⟨h1, h2⟩)]

/-- Witness for the amended C4 on a one-cell range. -/
theorem spec_c4_amended_witness :
    ((0 : ℤ) ≤ 0 ∧ (0 : ℤ) ≤ 0) ∧
    cellVolumeFill (fun i => (i : ℝ)) (fun _ => 2) (fun _ => 3) 0 0 0 0
        (fun _ => 0) 0 = dx1f (fun i => (i : ℝ)) 0 * 2 * 3 :=
  ⟨⟨le_refl 0, le_refl 0⟩,
    spec_c4_amended (fun i => (i : ℝ)) (fun _ => 2) (fun _ => 3) 0 0 0 0
      (fun _ => 0) 0 (le_refl 0) (le_refl 0)⟩

/-- `PrimToLocal1` maps the zero-velocity state to the zero-velocity state. -/
theorem primToLocal1V_zero (αsq βm βt : ℝ) :
    primToLocal1V αsq βm βt 0 0 0 = (0, 0, 0) := by
  simp [primToLocal1V]

/-- `PrimToLocal2` maps the zero-velocity state to the zero-velocity state. -/
theorem primToLocal2V_zero (αsq βm αc βt : ℝ) :
    primToLocal2V αsq βm αc βt 0 0 0 = (0, 0, 0) := by
  simp [primToLocal2V]

/-- `PrimToLocal3` maps the zero-velocity state to the zero-velocity state. -/
theorem primToLocal3V_zero (αsq βm βt : ℝ) :
    primToLocal3V αsq βm βt 0 0 0 = (0, 0, 0) := by
  simp [primToLocal3V]

/-- Local fluxes of the zero-velocity state: only the normal momentum flux is
nonzero, and it equals the pressure. -/
theorem localFlux_zero (gammaAdi ρ p : ℝ) :
    localFlux gammaAdi ρ p 0 0 0 = (0, 0, p, 0, 0) := by
  simp [localFlux]

/-- C5: for each of the three sweep directions independently, starting from
the global flux vector derived from a locally-flat test state (a zero-velocity
state, the spec's canonical test state of section 8), applying the forward
frame transform (`PrimToLocal`) and then the corresponding reverse flux
transform (`FluxToGlobal`) at the same interface index reproduces the original
global flux vector exactly. -/
theorem spec_c5 (a k : ℝ) (x1f : ℤ → ℝ) (i : ℤ) (gammaAdi ρ p : ℝ) :
    roundTrip1 a k x1f i gammaAdi ρ p 0 0 0 =
      globalFlux1 gammaAdi (metric_face1_i1 a k x1f i) (metric_face1_i2 a k x1f i)
        ρ p 0 0 0 ∧
    roundTrip2 a k x1f i gammaAdi ρ p 0 0 0 =
      globalFlux2 gammaAdi (metric_face2_i1 a k x1f i) (metric_face2_i2 a k x1f i)
        ρ p 0 0 0 ∧
    roundTrip3 a k x1f i gammaAdi ρ p 0 0 0 =
      globalFlux3 gammaAdi (metric_face3_i1 a k x1f i) (metric_face3_i2 a k x1f i)
        ρ p 0 0 0 := by
  refine ⟨?_, ?_, ?_⟩
  · simp only [roundTrip1]
    rw [primToLocal1V_zero]
    simp only [Prod.fst, Prod.snd]
    rw [localFlux_zero]
    simp only [fluxToGlobal1, globalFlux1, u0Of_zero, Prod.mk.injEq]
    rw [show trans_face1_i2 a k x1f i = metric_face1_i2 a k x1f i from rfl]
    refine ⟨by ring, by ring, by ring, by ring, by ring⟩
  · have hpos := alphaSq_pos a k (x1v x1f i)
    have hs : trans_face2_i1 a k x1f i * trans_face2_i1 a k x1f i =
        metric_face2_i1 a k x1f i := Real.mul_self_sqrt (le_of_lt hpos)
    have hne : trans_face2_i1 a k x1f i ≠ 0 :=
      ne_of_gt (Real.sqrt_pos.mpr hpos)
    simp only [roundTrip2]
    rw [primToLocal2V_zero]
    simp only [Prod.fst, Prod.snd]
    rw [localFlux_zero]
    simp only [riemannSlots2, fluxToGlobal2, globalFlux2, u0Of_zero, Prod.fst,
      Prod.snd, Prod.mk.injEq]
    rw [show trans_face2_i2 a k x1f i = metric_face2_i2 a k x1f i from rfl]
    refine ⟨by field_simp, by field_simp, ?_, ?_, by field_simp⟩
    · field_simp
      linear_combination (-(metric_face2_i2 a k x1f i * p)) * hs
    · field_simp
      linear_combination p * hs
  · simp only [roundTrip3]
    rw [primToLocal3V_zero]
    simp only [Prod.fst, Prod.snd]
    rw [localFlux_zero]
    simp only [riemannSlots3, fluxToGlobal3, globalFlux3, u0Of_zero, Prod.fst,
      Prod.snd, Prod.mk.injEq]
    refine ⟨by ring, by ring, by ring, by ring, by ring⟩

end Sinusoidal
